import Mathlib

/-!
Verification of the billder remote cross-compilation service.

The repository has two programs:

* `cmd/billder/main.go` — an HTTP server whose `buildHandler` validates a
  request, runs a clone / tidy / compile pipeline, streams progress as
  SSE-style `data: ...` lines, then emits one `event: binary_start` signal
  followed by the raw bytes of the compiled artifact on the same response.
* `cmd/client/main.go` — a client that reads that response with a buffered
  line reader (`bufio.Reader`), prints progress lines, detects the
  `binary_start` signal, and hands the reader's remaining buffered bytes
  plus the rest of the connection to a local file (`reader.WriteTo`).

Go strings and byte streams are modelled as `List Char` (one `Char` per
byte; the wire protocol is ASCII apart from the opaque artifact bytes,
which are arbitrary).  External effects (git, the Go toolchain, the
filesystem) are oracles: their outcomes are inputs to the model.
-/

/-- Go strings / byte slices are modelled as lists of characters. -/
abbrev GoStr := List Char

/-- Views a Lean string literal as the list of its characters. -/
def str (s : String) : GoStr := s.toList

/-- Decimal digit character, for rendering numbers (`48 = '0'`). -/
def digitChar (d : Nat) : Char := Char.ofNat (48 + d)

/-- Builds the decimal digits of `n`, given enough fuel (structural
recursion so that concrete values evaluate in the kernel; fuel `n`
suffices since `n / 10 < n` for positive `n`). -/
def natToDecAux : Nat → Nat → GoStr
  | 0, _ => []
  | fuel + 1, n => if n = 0 then [] else natToDecAux fuel (n / 10) ++ [digitChar (n % 10)]

/-- Decimal rendering of a natural number. -/
def natToDec (n : Nat) : GoStr := if n = 0 then str "0" else natToDecAux n n

/-- Renders `sizeBytes / 1024 / 1024` with two decimal places, modelling the
Go `%.2f` formatting of `float64(stat.Size()) / 1024 / 1024` in the success
message (fixed-point approximation of the float rendering; no claim depends
on the digits, only on the message being a single newline-free line). -/
def fmtMB (sizeBytes : Nat) : GoStr :=
  let hundredths := sizeBytes * 100 / (1024 * 1024)
  natToDec (hundredths / 100) ++ str "." ++
    (if hundredths % 100 < 10 then str "0" else []) ++ natToDec (hundredths % 100)

/-- The JSON body of a build request (`RequestPayload` in both programs). -/
structure RequestPayload where
  repoURL : GoStr
  targetOS : GoStr
  targetArch : GoStr
deriving Repr, DecidableEq

/-- Default applied by the server after decoding: empty `target_arch`
becomes `"amd64"`. -/
def withDefaults (p : RequestPayload) : RequestPayload :=
  if p.targetArch = [] then { p with targetArch := str "amd64" } else p

/-- The parts of the incoming HTTP request that `buildHandler` reads:
the method and the `X-Billder-Token` header (Go's `Header.Get` returns the
empty string when the header is absent). -/
structure ServerRequest where
  method : GoStr
  headerToken : GoStr
deriving Repr, DecidableEq

/-- Outcomes of the external effects `buildHandler` performs, in program
order.  Each field is the result the corresponding operation would return:
`authToken` is `os.Getenv("AUTH_TOKEN")`; `hasFlusher` is whether the
`http.Flusher` cast succeeds; `decodeResult` is the JSON decode of the
(4 KB-limited) body; `cloneOK` is whether `git clone` exits zero;
`dirContents` is `os.ReadDir` on the clone target; `tidyOK` is the exit
status of `go mod tidy` (discarded by the code: `_ = tidyCmd.Run()`);
`buildOK` is whether `go build` exits zero; `fileBytes` is the content of
the produced binary (the server exclusively owns the temp workspace, so
`os.Stat` sees `fileBytes.length` and `io.Copy` streams `fileBytes`);
`openOK` is whether `os.Open` on the binary succeeds. -/
structure SysOracle where
  authToken : GoStr
  hasFlusher : Bool
  decodeResult : Option RequestPayload
  mkdirTempOK : Bool
  cloneOK : Bool
  dirContents : List GoStr
  tidyOK : Bool
  buildOK : Bool
  fileBytes : GoStr
  openOK : Bool
deriving Repr, DecidableEq

/-- One structured element written to the response body: a progress event
(`data: msg\n\n`), the switch signal (`event: binary_start\ndata: name\n\n`),
or the raw artifact bytes that follow the signal. -/
inductive StreamEvent where
  | progress (msg : GoStr)
  | switchSig (name : GoStr)
  | raw (bytes : GoStr)
deriving Repr, DecidableEq

/-- What `buildHandler` sends back: either an HTTP error status written
before any streaming (`http.Error`), or a streamed body. -/
inductive HandlerOut where
  | httpError (code : Nat) (msg : GoStr)
  | stream (events : List StreamEvent)
deriving Repr, DecidableEq

/-- True exactly on the `httpError` outcomes. -/
def HandlerOut.isHttpError : HandlerOut → Bool
  | .httpError _ _ => true
  | .stream _ => false

/-- True exactly on a 401 Unauthorized outcome. -/
def HandlerOut.is401 : HandlerOut → Bool
  | .httpError c _ => c == 401
  | .stream _ => false

/-- Pipeline stages actually attempted by `buildHandler`, in program order:
`os.MkdirTemp`, `git clone`, `os.ReadDir`, `go mod tidy`, `go build`,
`os.Stat`, `os.Open`. -/
inductive Stage where
  | mkTemp | clone | readDir | tidy | build | statFile | openFile
deriving Repr, DecidableEq

/-- Wire bytes of one progress event, exactly as written by the server's
`sendProgress` helper: `fmt.Fprintf(w, "data: %s\n\n", msg)`.  The Go
source's comment above this line reads "Clean newlines to avoid breaking
SSE protocol", but the code performs no cleaning: `msg` is embedded
verbatim. -/
def sendProgressWire (msg : GoStr) : GoStr := str "data: " ++ msg ++ str "\n\n"

/-- Single-quote character (ASCII 39), used in server message text. -/
def squote : Char := Char.ofNat 39

/-- Message streamed when the JSON body fails to decode. -/
def msgInvalidJSON : GoStr := str "Error: Invalid JSON payload"

/-- First progress message: `Starting job for <repo> [<os>/<arch>]`. -/
def startMsg (p : RequestPayload) : GoStr :=
  str "Starting job for " ++ p.repoURL ++ str " [" ++ p.targetOS ++ str "/" ++
    p.targetArch ++ str "]"

/-- Message streamed for a target OS outside the supported enum. -/
def msgUnsupportedOS : GoStr :=
  str "Error: Unsupported OS. Only " ++ [squote] ++ str "linux" ++ [squote] ++
    str " and " ++ [squote] ++ str "windows" ++ [squote] ++ str " supported."

/-- Message streamed when the temp workspace cannot be created. -/
def msgWorkspaceFail : GoStr := str "Error: Failed to create workspace"

/-- Progress message announcing the clone stage. -/
def msgStep1 : GoStr := str "Step 1/3: Cloning repository..."

/-- Message streamed when `git clone` exits non-zero. -/
def msgCloneFail : GoStr := str "Error: Git clone failed. Is the URL correct?"

/-- Message streamed when the cloned directory is empty. -/
def msgEmptyRepo : GoStr := str "Error: Repository is empty."

/-- Progress message announcing the dependency-resolution stage. -/
def msgStep2 : GoStr := str "Step 2/3: Resolving dependencies..."

/-- Progress message announcing the compile stage. -/
def msgStep3 : GoStr := str "Step 3/3: Compiling..."

/-- Message streamed when `go build` exits non-zero. -/
def msgCompileFail : GoStr := str "Error: Compilation failed."

/-- Message streamed when the built artifact cannot be opened. -/
def msgOpenFail : GoStr := str "Error: Could not open built artifact"

/-- Success progress message reporting the artifact size. -/
def successMsg (sizeBytes : Nat) : GoStr :=
  str "Build Successful! Artifact size: " ++ fmtMB sizeBytes ++ str " MB"

/-- Base name of the output binary: `filepath.Base` of
`filepath.Join(tmpDir, "app")` plus `".exe"` for windows targets (the temp
directory path contributes only leading components, so the base name is
fixed). -/
def outputBinaryBase (p : RequestPayload) : GoStr :=
  if p.targetOS = str "windows" then str "app.exe" else str "app"

/-- Compiler environment derived from the payload (the `env` slice the
server passes to `go mod tidy` and `go build`); derived but not consumed by
any modelled output, since the toolchain results are oracle inputs. -/
def buildEnvVars (p : RequestPayload) : List GoStr :=
  if p.targetOS = str "windows" then
    [str "CGO_ENABLED=1", str "GOOS=windows", str "GOARCH=" ++ p.targetArch,
     str "CC=x86_64-w64-mingw32-gcc", str "CXX=x86_64-w64-mingw32-g++"]
  else
    [str "CGO_ENABLED=1", str "GOOS=linux", str "GOARCH=" ++ p.targetArch,
     str "CC=gcc"]

/-- The server's `buildHandler`, translated control-flow step by step from
`cmd/billder/main.go`.  Returns the response (HTTP error or streamed event
sequence) together with the list of pipeline stages actually attempted. -/
def buildHandler (r : ServerRequest) (sys : SysOracle) : HandlerOut × List Stage :=
  if r.method ≠ str "POST" then
    (.httpError 405 (str "Method Not Allowed"), [])
  else if sys.authToken ≠ [] ∧ r.headerToken ≠ sys.authToken then
    (.httpError 401 (str "Unauthorized"), [])
  else if sys.hasFlusher = false then
    (.httpError 500 (str "Streaming unsupported"), [])
  else
    match sys.decodeResult with
    | none => (.stream [.progress msgInvalidJSON], [])
    | some p0 =>
      let p := withDefaults p0
      let ev1 : List StreamEvent := [.progress (startMsg p)]
      if p.targetOS ≠ str "windows" ∧ p.targetOS ≠ str "linux" then
        (.stream (ev1 ++ [.progress msgUnsupportedOS]), [])
      else if sys.mkdirTempOK = false then
        (.stream (ev1 ++ [.progress msgWorkspaceFail]), [.mkTemp])
      else
        let ev2 := ev1 ++ [.progress msgStep1]
        if sys.cloneOK = false then
          (.stream (ev2 ++ [.progress msgCloneFail]), [.mkTemp, .clone])
        else if sys.dirContents = [] then
          (.stream (ev2 ++ [.progress msgEmptyRepo]), [.mkTemp, .clone, .readDir])
        else
          let ev4 := ev2 ++ [.progress msgStep2, .progress msgStep3]
          if sys.buildOK = false then
            (.stream (ev4 ++ [.progress msgCompileFail]),
             [.mkTemp, .clone, .readDir, .tidy, .build])
          else
            let ev5 := ev4 ++ [.progress (successMsg sys.fileBytes.length)]
            if sys.openOK = false then
              (.stream (ev5 ++ [.progress msgOpenFail]),
               [.mkTemp, .clone, .readDir, .tidy, .build, .statFile])
            else
              (.stream (ev5 ++ [.switchSig (outputBinaryBase p), .raw sys.fileBytes]),
               [.mkTemp, .clone, .readDir, .tidy, .build, .statFile, .openFile])

/-- Wire bytes of one structured element.  Progress events go through
`sendProgressWire`; the switch signal is the server's
`fmt.Fprintf(w, "event: binary_start\ndata: %s\n\n", name)`; raw bytes are
copied verbatim by `io.Copy`. -/
def encodeEvent : StreamEvent → GoStr
  | .progress m => sendProgressWire m
  | .switchSig n => str "event: binary_start\ndata: " ++ n ++ str "\n\n"
  | .raw bs => bs

/-- Wire bytes of a whole response body. -/
def encodeStream : List StreamEvent → GoStr
  | [] => []
  | e :: es => encodeEvent e ++ encodeStream es

/-- Splits off the first line of a byte stream: returns the prefix up to
and including the first `'\n'`, together with the remainder, or `none`
when the stream contains no `'\n'`. -/
def firstLineSplit : GoStr → Option (GoStr × GoStr)
  | [] => none
  | c :: cs =>
    if c = '\n' then some ([c], cs)
    else
      match firstLineSplit cs with
      | some (l, rest) => some (c :: l, rest)
      | none => none

/-- Go's `strings.TrimPrefix`: drops `p` from the front of `s` when it is
a prefix, otherwise returns `s` unchanged. -/
def trimPrefix (p s : GoStr) : GoStr :=
  if p.isPrefixOf s then s.drop p.length else s

/-- ASCII whitespace, the fragment of Go's `unicode.IsSpace` relevant to
this protocol (space, tab, newline, vertical tab, form feed, carriage
return). -/
def isSpaceChar (c : Char) : Bool :=
  c == ' ' || c == '\t' || c == '\n' || c == '\x0b' || c == '\x0c' || c == '\r'

/-- Go's `strings.TrimSpace` restricted to the ASCII whitespace above. -/
def trimSpace (s : GoStr) : GoStr :=
  ((s.dropWhile isSpaceChar).reverse.dropWhile isSpaceChar).reverse

/-- Prefix the client matches to detect the switch signal. -/
def eventBinaryStart : GoStr := str "event: binary_start"

/-- Prefix the client strips from `data:` lines. -/
def dataColon : GoStr := str "data:"

/-- State of the client's `bufio.Reader`: `buf` holds bytes already pulled
from the connection but not yet consumed, `rest` is what the connection
will still deliver.  The logically remaining stream is `buf ++ rest`. -/
structure BufReader where
  buf : GoStr
  rest : GoStr
deriving Repr, DecidableEq

/-- Bytes not yet consumed from the reader. -/
def BufReader.remaining (r : BufReader) : GoStr := r.buf ++ r.rest

/-- Models `bufio.Reader.ReadBytes('\n')` / `ReadString('\n')`: returns the
bytes up to and including the first `'\n'` together with `true`, or — when
the connection ends without a delimiter — everything left together with
`false` (Go returns the partial data plus a non-nil error).  The parameter
`k` is how many bytes past the returned line the underlying reads happened
to over-fetch into the internal buffer; this abstracts the arbitrary
chunking of network reads, so theorems quantify over it. -/
def BufReader.readLine (r : BufReader) (k : Nat) : GoStr × Bool × BufReader :=
  match firstLineSplit r.remaining with
  | some (line, after) => (line, true, ⟨after.take k, after.drop k⟩)
  | none => (r.remaining, false, ⟨[], []⟩)

/-- Models `bufio.Reader.WriteTo`: writes the internal buffer first, then
everything the underlying connection still delivers. -/
def BufReader.writeTo (r : BufReader) : GoStr := r.buf ++ r.rest

/-- The client's line-oriented loop (`cmd/client/main.go`, step 4).  Reads
lines until EOF or until the `event: binary_start` line; on the signal it
reads the `data:` line carrying the artifact name, consumes the blank
separator line, and stops.  Returns the printed progress messages, the
extracted file name (`[]` when no signal was detected before EOF, matching
Go's zero-value `filename`), and the reader state at loop exit.  `ks`
supplies the over-fetch amount of each successive read (see
`BufReader.readLine`). -/
def clientLoop (r : BufReader) (ks : List Nat) (msgs : List GoStr) :
    List GoStr × GoStr × BufReader :=
  match h : r.readLine (ks.headD 0) with
  | (_, false, rEnd) => (msgs, [], rEnd)
  | (line, true, r1) =>
    if eventBinaryStart.isPrefixOf line then
      match r1.readLine ((ks.drop 1).headD 0) with
      | (dataLine, _, r2) =>
        match r2.readLine ((ks.drop 2).headD 0) with
        | (_, _, r3) => (msgs, trimSpace (trimPrefix dataColon dataLine), r3)
    else if dataColon.isPrefixOf line then
      let m := trimSpace (trimPrefix dataColon line)
      clientLoop r1 (ks.drop 1) (if m.isEmpty then msgs else msgs ++ [m])
    else
      clientLoop r1 (ks.drop 1) msgs
termination_by r.remaining.length
decreasing_by
  all_goals
    (have key : ∀ (s l a : GoStr), firstLineSplit s = some (l, a) → s = l ++ a ∧ l ≠ [] := by
      intro s
      induction s with
      | nil => intro l a hs; simp [firstLineSplit] at hs
      | cons c cs ih =>
        intro l a hs
        unfold firstLineSplit at hs
        by_cases hc : c = '\n'
        · simp [hc] at hs
          obtain ⟨hl, ha⟩ := hs
          subst hl ha
          exact ⟨by simp [hc], by simp⟩
        · simp [hc] at hs
          rcases hrec : firstLineSplit cs with _ | ⟨l2, rest2⟩
          · rw [hrec] at hs
            simp at hs
          · rw [hrec] at hs
            simp at hs
            obtain ⟨hl, ha⟩ := hs
            obtain ⟨hseq, -⟩ := ih l2 rest2 hrec
            subst hl ha
            exact ⟨by simp [hseq], by simp⟩)
    unfold BufReader.readLine at h
    rcases hs : firstLineSplit r.remaining with _ | ⟨l0, after⟩
    · rw [hs] at h
      simp at h
    · rw [hs] at h
      simp only [Option.some.injEq, Prod.mk.injEq] at h
      obtain ⟨-, -, hr⟩ := h
      obtain ⟨hseq, hne⟩ := key _ _ _ hs
      have hpos : 0 < l0.length := by
        cases l0 with
        | nil => exact absurd rfl hne
        | cons _ _ => simp
      have hrem : r1.remaining.length = after.length := by
        rw [← hr]
        simp [BufReader.remaining]
      rw [hrem, hseq]
      simp only [List.length_append]
      omega

/-- Final state of the client process: artifact saved (with the bytes the
file received), download interrupted mid-copy, or no artifact received. -/
inductive ClientOutcome where
  | saved (msgs : List GoStr) (filename : GoStr) (contents : GoStr)
  | interrupted (msgs : List GoStr) (filename : GoStr)
  | noArtifact (msgs : List GoStr)
deriving Repr, DecidableEq

/-- Whether the outcome involved creating a local file (`os.Create` runs
only on the branch with a nonempty file name). -/
def ClientOutcome.createsFile : ClientOutcome → Bool
  | .noArtifact _ => false
  | .saved _ _ _ => true
  | .interrupted _ _ => true

/-- True exactly on the mid-transfer `Download interrupted` outcome. -/
def ClientOutcome.isDownloadInterrupted : ClientOutcome → Bool
  | .interrupted _ _ => true
  | _ => false

/-- The client's whole response processing: run the line loop on a fresh
buffered reader over the response body, then — if a file name was
extracted — create the file and `WriteTo` the rest of the reader into it
(`writeOK` is whether that copy completes without error); otherwise report
that no binary was received. -/
def clientMain (stream : GoStr) (ks : List Nat) (writeOK : Bool) : ClientOutcome :=
  match clientLoop ⟨[], stream⟩ ks [] with
  | (msgs, fname, r) =>
    if fname.isEmpty then .noArtifact msgs
    else if writeOK then .saved msgs fname r.writeTo
    else .interrupted msgs fname

/-- A nonempty newline-free token whose first and last characters are not
whitespace, so it survives `trimSpace` intact; the artifact names `app` /
`app.exe` are such tokens. -/
abbrev trimStable (s : GoStr) : Prop :=
  s ≠ [] ∧ '\n' ∉ s ∧
    (∀ c, s.head? = some c → isSpaceChar c = false) ∧
    (∀ c, s.getLast? = some c → isSpaceChar c = false)

/-- Progress prefix common to all pipeline outcomes (the `Starting job`
line). -/
def evStart (p0 : RequestPayload) : StreamEvent := .progress (startMsg (withDefaults p0))


/-- Preconditions for a request to get past the method, auth, flusher and
decode checks of `buildHandler`. -/
abbrev preflightOK (r : ServerRequest) (sys : SysOracle) (p0 : RequestPayload) : Prop :=
  r.method = str "POST" ∧ ¬(sys.authToken ≠ [] ∧ r.headerToken ≠ sys.authToken) ∧
    sys.hasFlusher = true ∧ sys.decodeResult = some p0

/-- The target OS of the decoded payload is outside the supported enum. -/
abbrev osUnsupported (p0 : RequestPayload) : Prop :=
  (withDefaults p0).targetOS ≠ str "windows" ∧ (withDefaults p0).targetOS ≠ str "linux"


/-- The five progress messages of a successful pipeline run, in order. -/
def serverSuccessMsgs (p0 : RequestPayload) (size : Nat) : List GoStr :=
  [startMsg (withDefaults p0), msgStep1, msgStep2, msgStep3, successMsg size]

/-- File name recorded by a `saved` outcome, if any. -/
def savedFilename : ClientOutcome → Option GoStr
  | .saved _ fn _ => some fn
  | _ => none

/-- Fixture: a plain POST request with no auth header. -/
def reqPost : ServerRequest := ⟨str "POST", []⟩

/-- Fixture: a GET request carrying a wrong token. -/
def reqGet : ServerRequest := ⟨str "GET", str "x"⟩

/-- Fixture: a well-formed windows build request. -/
def okPayload : RequestPayload := ⟨str "github.com/x/y", str "windows", []⟩

/-- Fixture: oracle for a fully successful windows build. -/
def okSys : SysOracle :=
  ⟨[], true, some okPayload, true, true, [str "main.go"], true, true, str "MZ\n\nPE bin", true⟩

/-- Fixture: the event sequence of the successful `okSys` run. -/
def okEvs : List StreamEvent :=
  [evStart okPayload, .progress msgStep1, .progress msgStep2, .progress msgStep3,
   .progress (successMsg okSys.fileBytes.length), .switchSig (str "app.exe"),
   .raw okSys.fileBytes]

/-- Fixture: all seven pipeline stages, in order. -/
def fullStages : List Stage :=
  [.mkTemp, .clone, .readDir, .tidy, .build, .statFile, .openFile]

/-- Fixture: oracle whose request body fails to decode. -/
def noJSONSys : SysOracle := ⟨[], true, none, true, true, [], true, true, [], true⟩

/-- Fixture: oracle with a configured shared secret. -/
def tokenSys : SysOracle := ⟨str "s3cret", true, none, true, true, [], true, true, [], true⟩

/-- Fixture: payload with an empty (missing) source reference. -/
def noRepoPayload : RequestPayload := ⟨[], str "linux", str "amd64"⟩

/-- Fixture: oracle delivering the missing-source payload. -/
def noRepoSys : SysOracle :=
  ⟨[], true, some noRepoPayload, true, true, [str "main.go"], true, true, str "bin", true⟩

/-- Fixture: payload with a missing target OS. -/
def noOSPayload : RequestPayload := ⟨str "github.com/x/y", [], []⟩

/-- Fixture: oracle delivering the missing-OS payload. -/
def noOSSys : SysOracle :=
  ⟨[], true, some noOSPayload, true, true, [str "main.go"], true, true, str "bin", true⟩

/-- Fixture: oracle whose `git clone` fails. -/
def cloneFailSys : SysOracle :=
  ⟨[], true, some okPayload, true, false, [], true, true, [], true⟩

/-- Fixture: the event sequence of the `cloneFailSys` run. -/
def cloneFailEvs : List StreamEvent :=
  [evStart okPayload, .progress msgStep1, .progress msgCloneFail]

/-- Fixture: payload whose repository reference embeds a forged switch
signal (newline injection through `repo_url`). -/
def evilPayload : RequestPayload :=
  ⟨str "x\nevent: binary_start\ndata: evil", str "linux", str "amd64"⟩

/-- Fixture: artifact bytes of the injection scenario. -/
def evilBin : GoStr := str "MZ\n\nbin"

/-- Fixture: oracle for a successful build of the injection payload. -/
def evilSys : SysOracle :=
  ⟨[], true, some evilPayload, true, true, [str "main.go"], true, true, evilBin, true⟩

/-- Fixture: the event sequence of the successful `evilSys` run; the
server-side switch signal carries the name `app`. -/
def evilEvs : List StreamEvent :=
  [evStart evilPayload, .progress msgStep1, .progress msgStep2, .progress msgStep3,
   .progress (successMsg evilBin.length), .switchSig (str "app"), .raw evilBin]

/-- Fixture: the file name the client actually extracts from the forged
signal line in the injection scenario. -/
def evilName : GoStr := str "evil [linux/amd64]"

/-- Fixture: an artifact byte pattern that collides with the line framing
(embedded newlines, a `data:` line and a forged signal line). -/
def binFixture : GoStr := str "MZ\n\ndata: x\nevent: binary_start\nrest"

/-- Fixture: a POST request carrying a wrong token. -/
def reqPostBadTok : ServerRequest := ⟨str "POST", str "x"⟩

/-- Fixture: oracle whose response writer supports no flushing. -/
def noFlusherSys : SysOracle := ⟨[], false, none, true, true, [], true, true, [], true⟩

/-- Fixture: oracle for a clone failure of the injection payload. -/
def evilCloneFailSys : SysOracle :=
  ⟨[], true, some evilPayload, true, false, [], true, true, [], true⟩

/-- Fixture: the event sequence of the `evilCloneFailSys` run — progress
events only, no server-side switch signal. -/
def evilCloneFailEvs : List StreamEvent :=
  [evStart evilPayload, .progress msgStep1, .progress msgCloneFail]

/-- A successful `firstLineSplit` decomposes the stream and the line is
nonempty. -/
theorem firstLineSplit_some {s l a : GoStr}
    (h : firstLineSplit s = some (l, a)) : s = l ++ a ∧ l ≠ [] := by
  induction s generalizing l a with
  | nil => simp [firstLineSplit] at h
  | cons c cs ih =>
    unfold firstLineSplit at h
    by_cases hc : c = '\n'
    · simp [hc] at h
      obtain ⟨hl, ha⟩ := h
      subst hl ha
      exact ⟨by simp [hc], by simp⟩
    · simp [hc] at h
      match hrec : firstLineSplit cs with
      | some (l', rest') =>
        rw [hrec] at h
        simp at h
        obtain ⟨hl, ha⟩ := h
        obtain ⟨hs, _⟩ := ih hrec
        subst hl ha
        exact ⟨by simp [hs], by simp⟩
      | none => rw [hrec] at h; simp at h

/-- A found line strictly shrinks the remaining stream. -/
theorem readLine_true_lt {r : BufReader} {k : Nat} {l : GoStr} {r' : BufReader}
    (h : r.readLine k = (l, true, r')) :
    r'.remaining.length < r.remaining.length := by
  unfold BufReader.readLine at h
  match hs : firstLineSplit r.remaining with
  | some (line, after) =>
    rw [hs] at h
    simp at h
    obtain ⟨_, hr⟩ := h
    obtain ⟨heq, hne⟩ := firstLineSplit_some hs
    subst hr
    have hpos : 0 < line.length := by
      cases line with
      | nil => exact absurd rfl hne
      | cons _ _ => simp
    have hrem : (BufReader.mk (after.take k) (after.drop k)).remaining = after := by
      simp [BufReader.remaining]
    rw [hrem, heq]
    simp only [List.length_append]
    omega
  | none => rw [hs] at h; simp at h

/-- Splitting the first line off `l ++ '\n' :: r` when `l` is newline-free. -/
theorem firstLineSplit_append_nl {l : GoStr} (r : GoStr) (h : '\n' ∉ l) :
    firstLineSplit (l ++ '\n' :: r) = some (l ++ ['\n'], r) := by
  induction l with
  | nil => simp [firstLineSplit]
  | cons c t ih =>
    have hc : ¬c = '\n' := by
      intro hc
      exact h (by simp [hc])
    have ht : '\n' ∉ t := fun hm => h (by simp [hm])
    simp [firstLineSplit, hc, ih ht]

/-- Reading a line from a reader whose remaining stream starts with a
newline-free line `l`. -/
theorem readLine_found {r : BufReader} {l rest : GoStr} {k : Nat}
    (hrem : r.remaining = l ++ '\n' :: rest) (hnl : '\n' ∉ l) :
    r.readLine k = (l ++ ['\n'], true, ⟨rest.take k, rest.drop k⟩) := by
  unfold BufReader.readLine
  rw [hrem, firstLineSplit_append_nl rest hnl]

/-- After a read that over-fetched `k` bytes, the logically remaining
stream is unchanged: the buffered prefix re-joins the connection tail. -/
theorem split_remaining (rest : GoStr) (k : Nat) :
    (BufReader.mk (rest.take k) (rest.drop k)).remaining = rest := by
  simp [BufReader.remaining]

/-- The switch-signal line is never a prefix of a line starting with `'d'`
(in particular of any `data:` progress line). -/
theorem ev_not_prefix_d (x : GoStr) :
    eventBinaryStart.isPrefixOf ('d' :: x) = false := rfl

/-- The switch-signal line is never a prefix of a blank line. -/
theorem ev_not_prefix_blank : eventBinaryStart.isPrefixOf ['\n'] = false := rfl

/-- One loop iteration over a non-signal line: the loop consumes `l` plus
its newline and recurses with the remainder, whatever the over-fetch. -/
theorem clientLoop_step {r : BufReader} {l rest : GoStr} {ks : List Nat}
    {msgs : List GoStr}
    (hrem : r.remaining = l ++ '\n' :: rest) (hnl : '\n' ∉ l)
    (hev : eventBinaryStart.isPrefixOf (l ++ ['\n']) = false) :
    ∃ r1 msgs1, clientLoop r ks msgs = clientLoop r1 (ks.drop 1) msgs1 ∧
      r1.remaining = rest := by
  have h := readLine_found (k := ks.headD 0) hrem hnl
  cases hdc : dataColon.isPrefixOf (l ++ ['\n']) with
  | false =>
    refine ⟨⟨rest.take (ks.headD 0), rest.drop (ks.headD 0)⟩, msgs, ?_, split_remaining ..⟩
    rw [clientLoop.eq_def, h]
    simp [hev, hdc]
  | true =>
    refine ⟨⟨rest.take (ks.headD 0), rest.drop (ks.headD 0)⟩,
      if (trimSpace (trimPrefix dataColon (l ++ ['\n']))).isEmpty then msgs
      else msgs ++ [trimSpace (trimPrefix dataColon (l ++ ['\n']))], ?_, split_remaining ..⟩
    rw [clientLoop.eq_def, h]
    simp [hev, hdc]

/-- On an exhausted stream the loop ends with no file name. -/
theorem clientLoop_eof {r : BufReader} (ks : List Nat) (msgs : List GoStr)
    (h : r.remaining = []) :
    clientLoop r ks msgs = (msgs, [], ⟨[], []⟩) := by
  have hr : r.readLine (ks.headD 0) = ([], false, ⟨[], []⟩) := by
    unfold BufReader.readLine
    rw [h]
    rfl
  rw [clientLoop.eq_def, hr]

/-- Wire form of one progress event, decomposed into its two lines. -/
theorem progress_wire (m rest : GoStr) :
    encodeEvent (.progress m) ++ rest = (str "data: " ++ m) ++ '\n' :: ('\n' :: rest) := by
  show ((str "data: " ++ m) ++ str "\n\n") ++ rest = _
  rw [List.append_assoc]
  rfl

/-- Wire form of the switch signal, decomposed into its lines. -/
theorem switch_wire (n bs : GoStr) :
    encodeEvent (.switchSig n) ++ bs =
      str "event: binary_start" ++ '\n' :: ((str "data: " ++ n) ++ '\n' :: ('\n' :: bs)) := by
  have hA : str "event: binary_start\ndata: " =
      str "event: binary_start" ++ '\n' :: str "data: " := rfl
  show ((str "event: binary_start\ndata: " ++ n) ++ str "\n\n") ++ bs = _
  rw [hA]
  simp [List.append_assoc]
  rfl

/-- Encoding distributes over concatenation of event lists. -/
theorem encodeStream_append (a b : List StreamEvent) :
    encodeStream (a ++ b) = encodeStream a ++ encodeStream b := by
  induction a with
  | nil => rfl
  | cons e es ih => simp [encodeStream, ih, List.append_assoc]

/-- Extracting the artifact name from its `data:` line: for a trim-stable
token the client's `TrimSpace(TrimPrefix(dataLine, "data:"))` recovers the
name exactly. -/
theorem fname_extract (n : GoStr) (h : trimStable n) :
    trimSpace (trimPrefix dataColon ((str "data: " ++ n) ++ ['\n'])) = n := by
  obtain ⟨hne, _, hhd, hlast⟩ := h
  have h1 : trimPrefix dataColon ((str "data: " ++ n) ++ ['\n']) = ' ' :: (n ++ ['\n']) := rfl
  have h2 : (' ' :: (n ++ ['\n'])).dropWhile isSpaceChar = n ++ ['\n'] := by
    rw [List.dropWhile_cons]
    simp only [show isSpaceChar ' ' = true from rfl, if_true]
    cases n with
    | nil => exact absurd rfl hne
    | cons c t =>
      rw [List.cons_append, List.dropWhile_cons]
      simp [hhd c rfl]
  have h3 : (n ++ ['\n']).reverse = '\n' :: n.reverse := by simp
  have h4 : ('\n' :: n.reverse).dropWhile isSpaceChar = n.reverse := by
    rw [List.dropWhile_cons]
    simp only [show isSpaceChar '\n' = true from rfl, if_true]
    match hrev : n.reverse with
    | [] => rfl
    | d :: t =>
      rw [List.dropWhile_cons]
      have hd : n.getLast? = some d := by
        rw [← List.head?_reverse, hrev]
        rfl
      simp [hlast d hd]
  rw [h1]
  unfold trimSpace
  rw [h2, h3, h4, List.reverse_reverse]

/-- The loop consumes any encoded run of newline-free progress events and
continues on whatever follows, for every over-fetch schedule. -/
theorem clientLoop_skip_progress :
    ∀ (pm : List GoStr), (∀ m ∈ pm, '\n' ∉ m) →
    ∀ (tail : GoStr) (r : BufReader) (ks : List Nat) (msgs : List GoStr),
      r.remaining = encodeStream (pm.map .progress) ++ tail →
      ∃ r1 ks1 msgs1,
        clientLoop r ks msgs = clientLoop r1 ks1 msgs1 ∧ r1.remaining = tail
  | [], _, tail, r, ks, msgs, hrem =>
    ⟨r, ks, msgs, rfl, by simpa [encodeStream] using hrem⟩
  | m :: pm, hnl, tail, r, ks, msgs, hrem => by
    have hm : '\n' ∉ m := hnl m (by simp)
    have hrem' : r.remaining =
        (str "data: " ++ m) ++ '\n' :: ('\n' :: (encodeStream (pm.map .progress) ++ tail)) := by
      rw [hrem,
        show encodeStream ((m :: pm).map .progress)
          = encodeEvent (.progress m) ++ encodeStream (pm.map .progress) from rfl,
        List.append_assoc, progress_wire]
    have hnlData : '\n' ∉ str "data: " ++ m := by
      intro hmem
      rcases List.mem_append.mp hmem with hx | hx
      · revert hx
        decide
      · exact hm hx
    obtain ⟨rA, msgsA, hA, hremA⟩ :=
      clientLoop_step hrem' hnlData (ev_not_prefix_d _)
    have hremA' : rA.remaining =
        [] ++ '\n' :: (encodeStream (pm.map .progress) ++ tail) := by
      simpa using hremA
    obtain ⟨rB, msgsB, hB, hremB⟩ :=
      clientLoop_step hremA' (by simp) ev_not_prefix_blank
    obtain ⟨r1, ks1, msgs1, hC, hrem1⟩ :=
      clientLoop_skip_progress pm (fun x hx => hnl x (by simp [hx])) tail rB
        ((ks.drop 1).drop 1) msgsB hremB
    exact ⟨r1, ks1, msgs1, by rw [hA, hB, hC], hrem1⟩

/-- When the remaining stream is the switch signal followed by the artifact
bytes, the loop stops, extracts the artifact name, and leaves a reader
whose buffered prefix plus connection tail is exactly the artifact. -/
theorem clientLoop_switch {name bs : GoStr} {r : BufReader} {ks : List Nat}
    {msgs : List GoStr}
    (hclean : trimStable name)
    (hrem : r.remaining = encodeEvent (.switchSig name) ++ bs) :
    ∃ r3 : BufReader, clientLoop r ks msgs = (msgs, name, r3) ∧ r3.writeTo = bs := by
  have hnlname : '\n' ∉ name := hclean.2.1
  have hrem1 : r.remaining =
      str "event: binary_start" ++ '\n' :: ((str "data: " ++ name) ++ '\n' :: ('\n' :: bs)) := by
    rw [hrem, switch_wire]
  have h1 := readLine_found (k := ks.headD 0) hrem1 (by decide)
  rw [clientLoop.eq_def, h1]
  have hev : eventBinaryStart.isPrefixOf (str "event: binary_start" ++ ['\n']) = true := rfl
  simp only [hev, if_true]
  have hrem2 :
      (BufReader.mk (((str "data: " ++ name) ++ '\n' :: ('\n' :: bs)).take (ks.headD 0))
        (((str "data: " ++ name) ++ '\n' :: ('\n' :: bs)).drop (ks.headD 0))).remaining =
      (str "data: " ++ name) ++ '\n' :: ('\n' :: bs) := split_remaining ..
  have hnlData : '\n' ∉ str "data: " ++ name := by
    intro hmem
    rcases List.mem_append.mp hmem with hx | hx
    · revert hx
      decide
    · exact hnlname hx
  have h2 := readLine_found (k := (ks.drop 1).headD 0) hrem2 hnlData
  rw [h2]
  have hrem3 :
      (BufReader.mk (('\n' :: bs).take ((ks.drop 1).headD 0))
        (('\n' :: bs).drop ((ks.drop 1).headD 0))).remaining =
      [] ++ '\n' :: bs := split_remaining ..
  have h3 := readLine_found (k := (ks.drop 2).headD 0) hrem3 (by simp)
  rw [h3]
  refine ⟨⟨bs.take ((ks.drop 2).headD 0), bs.drop ((ks.drop 2).headD 0)⟩, ?_, ?_⟩
  · rw [show ([] : GoStr) ++ ['\n'] = ['\n'] from rfl] at *
    rw [fname_extract name hclean]
  · show bs.take _ ++ bs.drop _ = bs
    simp

/-- End-to-end round trip: for any run of newline-free progress events
followed by the switch signal (with a clean artifact name) and the raw
artifact bytes, the client — under every over-fetch schedule — saves a file
with exactly that name and exactly those bytes. -/
theorem client_roundtrip (pm : List GoStr) (name bs : GoStr) (ks : List Nat)
    (hnl : ∀ m ∈ pm, '\n' ∉ m) (hclean : trimStable name) :
    ∃ ms, clientMain (encodeStream (pm.map .progress ++ [.switchSig name, .raw bs]))
        ks true = .saved ms name bs := by
  have henc : encodeStream (pm.map .progress ++ [.switchSig name, .raw bs])
      = encodeStream (pm.map .progress) ++ (encodeEvent (.switchSig name) ++ bs) := by
    rw [encodeStream_append]
    simp [encodeStream, encodeEvent]
  have hrem0 :
      (BufReader.mk [] (encodeStream (pm.map .progress ++ [.switchSig name, .raw bs]))).remaining
        = encodeStream (pm.map .progress) ++ (encodeEvent (.switchSig name) ++ bs) := by
    simp [BufReader.remaining, henc]
  obtain ⟨r1, ks1, msgs1, hA, hrem1⟩ :=
    clientLoop_skip_progress pm hnl _ _ ks [] hrem0
  obtain ⟨r3, hB, hwt⟩ := clientLoop_switch hclean hrem1
  have hemp : name.isEmpty = false := by
    cases name with
    | nil => exact absurd rfl hclean.1
    | cons _ _ => rfl
  refine ⟨msgs1, ?_⟩
  unfold clientMain
  rw [hA, hB]
  simp [hemp, hwt]

/-- A response consisting only of newline-free progress events — the
failure paths of the server — leaves the client with no artifact. -/
theorem client_no_switch (pm : List GoStr) (ks : List Nat) (w : Bool)
    (hnl : ∀ m ∈ pm, '\n' ∉ m) :
    ∃ ms, clientMain (encodeStream (pm.map .progress)) ks w = .noArtifact ms := by
  have hrem0 : (BufReader.mk [] (encodeStream (pm.map .progress))).remaining
      = encodeStream (pm.map .progress) ++ [] := by
    simp [BufReader.remaining]
  obtain ⟨r1, ks1, msgs1, hA, hrem1⟩ :=
    clientLoop_skip_progress pm hnl [] _ ks [] hrem0
  refine ⟨msgs1, ?_⟩
  unfold clientMain
  rw [hA, clientLoop_eof ks1 msgs1 hrem1]
  rfl

/-- Digit runs contain no newline. -/
theorem natToDecAux_no_nl : ∀ (fuel n : Nat), '\n' ∉ natToDecAux fuel n := by
  intro fuel
  induction fuel with
  | zero => intro n; simp [natToDecAux]
  | succ f ih =>
    intro n
    unfold natToDecAux
    split
    · simp
    · intro hm
      rcases List.mem_append.mp hm with hx | hx
      · exact ih (n / 10) hx
      · have hlt : n % 10 < 10 := Nat.mod_lt _ (by omega)
        have : ('\n' : Char) = digitChar (n % 10) := by simpa using hx
        revert this
        interval_cases h : n % 10 <;> decide

/-- Decimal renderings contain no newline. -/
theorem natToDec_no_nl (n : Nat) : '\n' ∉ natToDec n := by
  unfold natToDec
  split
  · decide
  · exact natToDecAux_no_nl n n

/-- The formatted size contains no newline. -/
theorem fmtMB_no_nl (n : Nat) : '\n' ∉ fmtMB n := by
  unfold fmtMB
  intro hm
  simp only [List.mem_append] at hm
  rcases hm with ((hx | hx) | hx) | hx
  · exact natToDec_no_nl _ hx
  · revert hx
    decide
  · revert hx
    split <;> decide
  · exact natToDec_no_nl _ hx

/-- The success message contains no newline. -/
theorem successMsg_no_nl (n : Nat) : '\n' ∉ successMsg n := by
  unfold successMsg
  intro hm
  simp only [List.mem_append] at hm
  rcases hm with (hx | hx) | hx
  · revert hx
    decide
  · exact fmtMB_no_nl n hx
  · revert hx
    decide

/-- The start message contains no newline when the payload fields do not. -/
theorem startMsg_no_nl (p : RequestPayload)
    (h1 : '\n' ∉ p.repoURL) (h2 : '\n' ∉ p.targetOS) (h3 : '\n' ∉ p.targetArch) :
    '\n' ∉ startMsg p := by
  unfold startMsg
  intro hm
  simp only [List.mem_append] at hm
  rcases hm with (((((hx | hx) | hx) | hx) | hx) | hx) | hx
  · revert hx
    decide
  · exact h1 hx
  · revert hx
    decide
  · exact h2 hx
  · revert hx
    decide
  · exact h3 hx
  · revert hx
    decide

/-- Applying the arch default preserves the target OS. -/
theorem withDefaults_targetOS (p : RequestPayload) :
    (withDefaults p).targetOS = p.targetOS := by
  unfold withDefaults
  split <;> rfl

/-- Applying the arch default preserves the repository reference. -/
theorem withDefaults_repoURL (p : RequestPayload) :
    (withDefaults p).repoURL = p.repoURL := by
  unfold withDefaults
  split <;> rfl

/-- The defaulted arch contains no newline when the requested one does not. -/
theorem withDefaults_arch_no_nl (p : RequestPayload) (h : '\n' ∉ p.targetArch) :
    '\n' ∉ (withDefaults p).targetArch := by
  unfold withDefaults
  split
  · show '\n' ∉ str "amd64"
    decide
  · exact h

/-- Complete case analysis of `buildHandler`: every request/oracle pair
falls into exactly one of the eleven control-flow exits of the Go handler,
and in each case the response and attempted stages are as listed. -/
theorem buildHandler_cases (r : ServerRequest) (sys : SysOracle) :
    (buildHandler r sys = (.httpError 405 (str "Method Not Allowed"), []) ∧
      r.method ≠ str "POST") ∨
    (buildHandler r sys = (.httpError 401 (str "Unauthorized"), []) ∧
      r.method = str "POST" ∧ sys.authToken ≠ [] ∧ r.headerToken ≠ sys.authToken) ∨
    (buildHandler r sys = (.httpError 500 (str "Streaming unsupported"), []) ∧
      r.method = str "POST" ∧ ¬(sys.authToken ≠ [] ∧ r.headerToken ≠ sys.authToken) ∧
      sys.hasFlusher = false) ∨
    (buildHandler r sys = (.stream [.progress msgInvalidJSON], []) ∧
      r.method = str "POST" ∧ ¬(sys.authToken ≠ [] ∧ r.headerToken ≠ sys.authToken) ∧
      sys.hasFlusher = true ∧ sys.decodeResult = none) ∨
    (∃ p0, buildHandler r sys = (.stream [evStart p0, .progress msgUnsupportedOS], []) ∧
      preflightOK r sys p0 ∧ osUnsupported p0) ∨
    (∃ p0, buildHandler r sys = (.stream [evStart p0, .progress msgWorkspaceFail], [.mkTemp]) ∧
      preflightOK r sys p0 ∧ ¬osUnsupported p0 ∧ sys.mkdirTempOK = false) ∨
    (∃ p0, buildHandler r sys = (.stream [evStart p0, .progress msgStep1,
        .progress msgCloneFail], [.mkTemp, .clone]) ∧
      preflightOK r sys p0 ∧ ¬osUnsupported p0 ∧ sys.mkdirTempOK = true ∧
      sys.cloneOK = false) ∨
    (∃ p0, buildHandler r sys = (.stream [evStart p0, .progress msgStep1,
        .progress msgEmptyRepo], [.mkTemp, .clone, .readDir]) ∧
      preflightOK r sys p0 ∧ ¬osUnsupported p0 ∧ sys.mkdirTempOK = true ∧
      sys.cloneOK = true ∧ sys.dirContents = []) ∨
    (∃ p0, buildHandler r sys = (.stream [evStart p0, .progress msgStep1, .progress msgStep2,
        .progress msgStep3, .progress msgCompileFail],
        [.mkTemp, .clone, .readDir, .tidy, .build]) ∧
      preflightOK r sys p0 ∧ ¬osUnsupported p0 ∧ sys.mkdirTempOK = true ∧
      sys.cloneOK = true ∧ sys.dirContents ≠ [] ∧ sys.buildOK = false) ∨
    (∃ p0, buildHandler r sys = (.stream [evStart p0, .progress msgStep1, .progress msgStep2,
        .progress msgStep3, .progress (successMsg sys.fileBytes.length), .progress msgOpenFail],
        [.mkTemp, .clone, .readDir, .tidy, .build, .statFile]) ∧
      preflightOK r sys p0 ∧ ¬osUnsupported p0 ∧ sys.mkdirTempOK = true ∧
      sys.cloneOK = true ∧ sys.dirContents ≠ [] ∧ sys.buildOK = true ∧
      sys.openOK = false) ∨
    (∃ p0, buildHandler r sys = (.stream [evStart p0, .progress msgStep1, .progress msgStep2,
        .progress msgStep3, .progress (successMsg sys.fileBytes.length),
        .switchSig (outputBinaryBase (withDefaults p0)), .raw sys.fileBytes],
        [.mkTemp, .clone, .readDir, .tidy, .build, .statFile, .openFile]) ∧
      preflightOK r sys p0 ∧ ¬osUnsupported p0 ∧ sys.mkdirTempOK = true ∧
      sys.cloneOK = true ∧ sys.dirContents ≠ [] ∧ sys.buildOK = true ∧
      sys.openOK = true) := by
  by_cases hm : r.method = str "POST"
  case neg =>
    exact .inl ⟨by simp [buildHandler, hm], hm⟩
  by_cases ha : sys.authToken ≠ [] ∧ r.headerToken ≠ sys.authToken
  case pos =>
    exact .inr (.inl ⟨by simp [buildHandler, hm, ha], hm, ha.1, ha.2⟩)
  by_cases hf : sys.hasFlusher = false
  case pos =>
    exact .inr (.inr (.inl ⟨by simp [buildHandler, hm, ha, hf], hm, ha, hf⟩))
  have hf' : sys.hasFlusher = true := by
    cases hflu : sys.hasFlusher
    · exact absurd hflu hf
    · rfl
  cases hd : sys.decodeResult with
  | none =>
    exact .inr (.inr (.inr (.inl ⟨by simp [buildHandler, hm, ha, hf, hd], hm, ha, hf', rfl⟩)))
  | some p0 =>
    by_cases hos : osUnsupported p0
    case pos =>
      exact .inr (.inr (.inr (.inr (.inl ⟨p0,
        by simp [buildHandler, evStart, hm, ha, hf, hd, hos.1, hos.2],
        ⟨hm, ha, hf', hd⟩, hos⟩))))
    have hos' : ¬((withDefaults p0).targetOS ≠ str "windows" ∧
        (withDefaults p0).targetOS ≠ str "linux") := hos
    by_cases hmk : sys.mkdirTempOK = false
    case pos =>
      exact .inr (.inr (.inr (.inr (.inr (.inl ⟨p0,
        by simp [buildHandler, evStart, hm, ha, hf, hd, hos', hmk],
        ⟨hm, ha, hf', hd⟩, hos, hmk⟩)))))
    have hmk' : sys.mkdirTempOK = true := by
      cases hx : sys.mkdirTempOK
      · exact absurd hx hmk
      · rfl
    by_cases hcl : sys.cloneOK = false
    case pos =>
      exact .inr (.inr (.inr (.inr (.inr (.inr (.inl ⟨p0,
        by simp [buildHandler, evStart, hm, ha, hf, hd, hos', hmk, hcl],
        ⟨hm, ha, hf', hd⟩, hos, hmk', hcl⟩))))))
    have hcl' : sys.cloneOK = true := by
      cases hx : sys.cloneOK
      · exact absurd hx hcl
      · rfl
    by_cases hdir : sys.dirContents = []
    case pos =>
      exact .inr (.inr (.inr (.inr (.inr (.inr (.inr (.inl ⟨p0,
        by simp [buildHandler, evStart, hm, ha, hf, hd, hos', hmk, hcl, hdir],
        ⟨hm, ha, hf', hd⟩, hos, hmk', hcl', hdir⟩)))))))
    by_cases hb : sys.buildOK = false
    case pos =>
      exact .inr (.inr (.inr (.inr (.inr (.inr (.inr (.inr (.inl ⟨p0,
        by simp [buildHandler, evStart, hm, ha, hf, hd, hos', hmk, hcl, hdir, hb],
        ⟨hm, ha, hf', hd⟩, hos, hmk', hcl', hdir, hb⟩))))))))
    have hb' : sys.buildOK = true := by
      cases hx : sys.buildOK
      · exact absurd hx hb
      · rfl
    by_cases ho : sys.openOK = false
    case pos =>
      exact .inr (.inr (.inr (.inr (.inr (.inr (.inr (.inr (.inr (.inl ⟨p0,
        by simp [buildHandler, evStart, hm, ha, hf, hd, hos', hmk, hcl, hdir, hb, ho],
        ⟨hm, ha, hf', hd⟩, hos, hmk', hcl', hdir, hb', ho⟩)))))))))
    have ho' : sys.openOK = true := by
      cases hx : sys.openOK
      · exact absurd hx ho
      · rfl
    exact .inr (.inr (.inr (.inr (.inr (.inr (.inr (.inr (.inr (.inr ⟨p0,
      by simp [buildHandler, evStart, hm, ha, hf, hd, hos', hmk, hcl, hdir, hb, ho],
      ⟨hm, ha, hf', hd⟩, hos, hmk', hcl', hdir, hb', ho'⟩)))))))))

/-- An HTTP-error result never equals a streamed result. -/
theorem httpError_ne_stream {c : Nat} {m : GoStr} {evs : List StreamEvent}
    {S st : List Stage}
    (h : ((HandlerOut.httpError c m, S) : HandlerOut × List Stage) = (.stream evs, st)) :
    False := by
  simp at h

/-- Inverting a pair equation on streamed results. -/
theorem pair_stream_inv {L evs : List StreamEvent} {S st : List Stage}
    (h : ((HandlerOut.stream L, S) : HandlerOut × List Stage) = (.stream evs, st)) :
    evs = L ∧ st = S := by
  simp only [Prod.mk.injEq, HandlerOut.stream.injEq] at h
  exact ⟨h.1.symm, h.2.symm⟩

/-- C1: For every request whose response is streamed, the event sequence
written to the response body is exactly zero or more progress events
followed either by one SwitchSignal and then the raw artifact bytes, or by
connection close with no SwitchSignal and no artifact bytes; there is never
more than one SwitchSignal and it is always the last structured element
before the raw bytes. -/
theorem stream_shape_invariant (r : ServerRequest) (sys : SysOracle)
    (evs : List StreamEvent) (st : List Stage)
    (h : buildHandler r sys = (.stream evs, st)) :
    (∃ msgs : List GoStr, evs = msgs.map .progress) ∨
    (∃ (msgs : List GoStr) (name : GoStr),
      evs = msgs.map .progress ++ [.switchSig name, .raw sys.fileBytes]) := by
  rcases buildHandler_cases r sys with
    ⟨he, -⟩ | ⟨he, -⟩ | ⟨he, -⟩ | ⟨he, -⟩ | ⟨p0, he, -⟩ | ⟨p0, he, -⟩ | ⟨p0, he, -⟩ |
    ⟨p0, he, -⟩ | ⟨p0, he, -⟩ | ⟨p0, he, -⟩ | ⟨p0, he, -⟩ <;>
    rw [he] at h
  · exact (httpError_ne_stream h).elim
  · exact (httpError_ne_stream h).elim
  · exact (httpError_ne_stream h).elim
  · rw [(pair_stream_inv h).1]
    exact .inl ⟨[msgInvalidJSON], by simp⟩
  · rw [(pair_stream_inv h).1]
    exact .inl ⟨[startMsg (withDefaults p0), msgUnsupportedOS], by simp [evStart]⟩
  · rw [(pair_stream_inv h).1]
    exact .inl ⟨[startMsg (withDefaults p0), msgWorkspaceFail], by simp [evStart]⟩
  · rw [(pair_stream_inv h).1]
    exact .inl ⟨[startMsg (withDefaults p0), msgStep1, msgCloneFail], by simp [evStart]⟩
  · rw [(pair_stream_inv h).1]
    exact .inl ⟨[startMsg (withDefaults p0), msgStep1, msgEmptyRepo], by simp [evStart]⟩
  · rw [(pair_stream_inv h).1]
    exact .inl ⟨[startMsg (withDefaults p0), msgStep1, msgStep2, msgStep3, msgCompileFail],
      by simp [evStart]⟩
  · rw [(pair_stream_inv h).1]
    exact .inl ⟨[startMsg (withDefaults p0), msgStep1, msgStep2, msgStep3,
      successMsg sys.fileBytes.length, msgOpenFail], by simp [evStart]⟩
  · rw [(pair_stream_inv h).1]
    exact .inr ⟨[startMsg (withDefaults p0), msgStep1, msgStep2, msgStep3,
      successMsg sys.fileBytes.length], outputBinaryBase (withDefaults p0),
      by simp [evStart]⟩

/-- Witness for C1 at a concrete successful windows build. -/
theorem stream_shape_invariant_witness :
    (∃ msgs : List GoStr, okEvs = msgs.map .progress) ∨
    (∃ (msgs : List GoStr) (name : GoStr),
      okEvs = msgs.map .progress ++ [.switchSig name, .raw okSys.fileBytes]) :=
  stream_shape_invariant reqPost okSys okEvs fullStages (by decide)

/-- C3 (amended): following the check order of the handler, a non-POST
request is answered 405 Method Not Allowed; a POST request with a
configured token and a mismatched header is answered 401 Unauthorized; a
POST request passing auth whose writer cannot flush is answered 500
Streaming unsupported; and a request passing all three whose JSON body
fails to decode is answered with an in-stream error progress event (under
HTTP 200), not an HTTP error status.  In all four cases the build pipeline
never runs (no stage is attempted). -/
theorem preflight_rejection (r : ServerRequest) (sys : SysOracle) :
    (r.method ≠ str "POST" →
      buildHandler r sys = (.httpError 405 (str "Method Not Allowed"), [])) ∧
    (r.method = str "POST" → sys.authToken ≠ [] → r.headerToken ≠ sys.authToken →
      buildHandler r sys = (.httpError 401 (str "Unauthorized"), [])) ∧
    (r.method = str "POST" → ¬(sys.authToken ≠ [] ∧ r.headerToken ≠ sys.authToken) →
      sys.hasFlusher = false →
      buildHandler r sys = (.httpError 500 (str "Streaming unsupported"), [])) ∧
    (r.method = str "POST" → ¬(sys.authToken ≠ [] ∧ r.headerToken ≠ sys.authToken) →
      sys.hasFlusher = true → sys.decodeResult = none →
      buildHandler r sys = (.stream [.progress msgInvalidJSON], [])) := by
  refine ⟨?_, ?_, ?_, ?_⟩
  · intro hm
    simp [buildHandler, hm]
  · intro hm ht hh
    simp [buildHandler, hm, ht, hh]
  · intro hm ha hf
    simp [buildHandler, hm, ha, hf]
  · intro hm ha hf hd
    simp [buildHandler, hm, ha, hf, hd]

/-- Witness for C3 (amended): one concrete request per rejection cause,
each receiving its specific status, with no pipeline stage attempted. -/
theorem preflight_rejection_witness :
    buildHandler reqGet tokenSys = (.httpError 405 (str "Method Not Allowed"), []) ∧
    buildHandler reqPostBadTok tokenSys = (.httpError 401 (str "Unauthorized"), []) ∧
    buildHandler reqPost noFlusherSys = (.httpError 500 (str "Streaming unsupported"), []) ∧
    buildHandler reqPost noJSONSys = (.stream [.progress msgInvalidJSON], []) :=
  ⟨(preflight_rejection reqGet tokenSys).1 (by decide),
   (preflight_rejection reqPostBadTok tokenSys).2.1 (by decide) (by decide) (by decide),
   (preflight_rejection reqPost noFlusherSys).2.2.1 (by decide) (by decide) (by decide),
   (preflight_rejection reqPost noJSONSys).2.2.2 (by decide) (by decide) (by decide)
     (by decide)⟩

/-- Counterexample to C3 as stated: a malformed (undecodable) request is
answered with HTTP 200 and an in-stream error event, not with an HTTP
error status. -/
theorem preflight_rejection_cex :
    (buildHandler reqPost noJSONSys).1.isHttpError = false ∧
    (buildHandler reqPost noJSONSys).1 = .stream [.progress msgInvalidJSON] ∧
    (buildHandler reqPost noJSONSys).2 = [] := by decide

/-- C4 (amended): a BuildRequest whose target OS is missing or outside the
supported enum is rejected with an in-stream error event and no pipeline
stage (in particular no clone) is attempted; the source reference, by
contrast, is never validated. -/
theorem unsupported_os_rejected (r : ServerRequest) (sys : SysOracle) (p0 : RequestPayload)
    (hpre : preflightOK r sys p0)
    (h1 : p0.targetOS ≠ str "windows") (h2 : p0.targetOS ≠ str "linux") :
    buildHandler r sys = (.stream [evStart p0, .progress msgUnsupportedOS], []) := by
  obtain ⟨hm, ha, hf, hd⟩ := hpre
  have hos1 : (withDefaults p0).targetOS ≠ str "windows" := by
    rw [withDefaults_targetOS]
    exact h1
  have hos2 : (withDefaults p0).targetOS ≠ str "linux" := by
    rw [withDefaults_targetOS]
    exact h2
  simp [buildHandler, evStart, hm, ha, hf, hd, hos1, hos2]

/-- Witness for C4 (amended) at a concrete missing-OS request. -/
theorem unsupported_os_rejected_witness :
    buildHandler reqPost noOSSys =
      (.stream [evStart noOSPayload, .progress msgUnsupportedOS], []) :=
  unsupported_os_rejected reqPost noOSSys noOSPayload (by decide) (by decide) (by decide)

/-- Counterexample to C4 as stated: a BuildRequest with an empty (missing)
source reference is not rejected — the clone stage is attempted for it. -/
theorem missing_repo_not_rejected_cex :
    noRepoPayload.repoURL = [] ∧
    Stage.clone ∈ (buildHandler reqPost noRepoSys).2 := by decide

/-- C7: the dependency-resolution (`go mod tidy`) outcome is discarded —
the whole handler result is independent of it — and whenever the tidy
stage runs the compile stage runs too: a tidy failure alone never aborts
the pipeline. -/
theorem tidy_best_effort (r : ServerRequest) (sys : SysOracle) :
    buildHandler r { sys with tidyOK := false } =
      buildHandler r { sys with tidyOK := true } ∧
    (Stage.tidy ∈ (buildHandler r sys).2 ↔ Stage.build ∈ (buildHandler r sys).2) := by
  constructor
  · cases sys
    rfl
  · rcases buildHandler_cases r sys with
      ⟨he, -⟩ | ⟨he, -⟩ | ⟨he, -⟩ | ⟨he, -⟩ | ⟨p0, he, -⟩ | ⟨p0, he, -⟩ | ⟨p0, he, -⟩ |
      ⟨p0, he, -⟩ | ⟨p0, he, -⟩ | ⟨p0, he, -⟩ | ⟨p0, he, -⟩ <;>
      rw [he] <;>
      simp

/-- C9 (amended): the handler answers 401 Unauthorized exactly when the
method is POST, the configured AUTH_TOKEN is non-empty and the request's
X-Billder-Token differs from it; in particular with an empty AUTH_TOKEN no
request is ever rejected as unauthorized. -/
theorem auth_401_iff (r : ServerRequest) (sys : SysOracle) :
    (buildHandler r sys).1.is401 = true ↔
      (r.method = str "POST" ∧ sys.authToken ≠ [] ∧ r.headerToken ≠ sys.authToken) := by
  rcases buildHandler_cases r sys with
    ⟨he, hc⟩ | ⟨he, hc⟩ | ⟨he, hc⟩ | ⟨he, hc⟩ | ⟨p0, he, hc⟩ | ⟨p0, he, hc⟩ | ⟨p0, he, hc⟩ |
    ⟨p0, he, hc⟩ | ⟨p0, he, hc⟩ | ⟨p0, he, hc⟩ | ⟨p0, he, hc⟩ <;>
    rw [he]
  · simp [HandlerOut.is401, hc]
  · simp [HandlerOut.is401, hc.1, hc.2.1, hc.2.2]
  · simp [HandlerOut.is401, hc.2.1]
  · simp [HandlerOut.is401, hc.2.1]
  all_goals simp [HandlerOut.is401, hc.1.2.1]

/-- Counterexample to C9 as stated: with a non-empty AUTH_TOKEN and a
mismatched header, a non-POST request is answered 405, not 401 — so
"401 iff token set and mismatched" fails without the method condition. -/
theorem auth_401_cex :
    (buildHandler reqGet tokenSys).1.is401 = false ∧
    tokenSys.authToken ≠ [] ∧ reqGet.headerToken ≠ tokenSys.authToken := by decide

/-- C6: whenever the clone stage fails (non-zero exit or empty clone
result) or the compile stage fails, the streamed response consists of
progress events only and ends with the corresponding failure event; no
SwitchSignal is ever emitted, the open stage never runs, a clone failure
stops the pipeline before compile, and — for newline-free messages — the
client ends with no artifact, so its Artifact Sink is never invoked. -/
theorem failed_stage_no_switch (r : ServerRequest) (sys : SysOracle)
    (evs : List StreamEvent) (st : List Stage)
    (h : buildHandler r sys = (.stream evs, st))
    (hfail : sys.cloneOK = false ∨ sys.dirContents = [] ∨ sys.buildOK = false) :
    (∃ msgs : List GoStr, evs = msgs.map .progress) ∧
    (∀ name, StreamEvent.switchSig name ∉ evs) ∧
    Stage.openFile ∉ st ∧
    (sys.cloneOK = false → Stage.build ∉ st) ∧
    (Stage.clone ∈ st →
      evs.getLast? = some (.progress msgCloneFail) ∨
      evs.getLast? = some (.progress msgEmptyRepo) ∨
      evs.getLast? = some (.progress msgCompileFail)) ∧
    (∀ pm : List GoStr, evs = pm.map .progress → (∀ m ∈ pm, '\n' ∉ m) →
      ∀ ks w, ∃ ms, clientMain (encodeStream evs) ks w = .noArtifact ms) := by
  have hclient : ∀ evs : List StreamEvent,
      ∀ pm : List GoStr, evs = pm.map .progress → (∀ m ∈ pm, '\n' ∉ m) →
      ∀ ks w, ∃ ms, clientMain (encodeStream evs) ks w = .noArtifact ms := by
    intro evs pm hpm hnl ks w
    rw [hpm]
    exact client_no_switch pm ks w hnl
  rcases buildHandler_cases r sys with
    ⟨he, -⟩ | ⟨he, -⟩ | ⟨he, -⟩ | ⟨he, -⟩ | ⟨p0, he, hc⟩ | ⟨p0, he, hc⟩ | ⟨p0, he, hc⟩ |
    ⟨p0, he, hc⟩ | ⟨p0, he, hc⟩ | ⟨p0, he, hc⟩ | ⟨p0, he, hc⟩ <;>
    rw [he] at h
  · exact (httpError_ne_stream h).elim
  · exact (httpError_ne_stream h).elim
  · exact (httpError_ne_stream h).elim
  · obtain ⟨hevs, hst⟩ := pair_stream_inv h
    subst hevs
    subst hst
    refine ⟨⟨[msgInvalidJSON], by simp⟩, ?_, by simp, by simp, by simp, hclient _⟩
    intro name hmem
    simp at hmem
  · obtain ⟨hevs, hst⟩ := pair_stream_inv h
    subst hevs
    subst hst
    refine ⟨⟨[startMsg (withDefaults p0), msgUnsupportedOS], by simp [evStart]⟩, ?_,
      by simp, by simp, by simp, hclient _⟩
    intro name hmem
    simp [evStart] at hmem
  · obtain ⟨hevs, hst⟩ := pair_stream_inv h
    subst hevs
    subst hst
    refine ⟨⟨[startMsg (withDefaults p0), msgWorkspaceFail], by simp [evStart]⟩, ?_,
      by simp, by simp, by simp, hclient _⟩
    intro name hmem
    simp [evStart] at hmem
  · obtain ⟨hevs, hst⟩ := pair_stream_inv h
    subst hevs
    subst hst
    refine ⟨⟨[startMsg (withDefaults p0), msgStep1, msgCloneFail], by simp [evStart]⟩, ?_,
      by simp, by simp, ?_, hclient _⟩
    · intro name hmem
      simp [evStart] at hmem
    · intro _
      left
      simp
  · obtain ⟨hevs, hst⟩ := pair_stream_inv h
    subst hevs
    subst hst
    obtain ⟨-, -, -, hcl, -⟩ := hc
    refine ⟨⟨[startMsg (withDefaults p0), msgStep1, msgEmptyRepo], by simp [evStart]⟩, ?_,
      by simp, ?_, ?_, hclient _⟩
    · intro name hmem
      simp [evStart] at hmem
    · intro hclf
      rw [hcl] at hclf
      exact absurd hclf (by simp)
    · intro _
      right
      left
      simp
  · obtain ⟨hevs, hst⟩ := pair_stream_inv h
    subst hevs
    subst hst
    obtain ⟨-, -, -, hcl, -, -⟩ := hc
    refine ⟨⟨[startMsg (withDefaults p0), msgStep1, msgStep2, msgStep3, msgCompileFail],
      by simp [evStart]⟩, ?_, by simp, ?_, ?_, hclient _⟩
    · intro name hmem
      simp [evStart] at hmem
    · intro hclf
      rw [hcl] at hclf
      exact absurd hclf (by simp)
    · intro _
      right
      right
      simp
  · obtain ⟨-, -, -, hcl, hdir, hb, -⟩ := hc
    rcases hfail with hx | hx | hx
    · rw [hcl] at hx
      exact absurd hx (by simp)
    · exact absurd hx hdir
    · rw [hb] at hx
      exact absurd hx (by simp)
  · obtain ⟨-, -, -, hcl, hdir, hb, -⟩ := hc
    rcases hfail with hx | hx | hx
    · rw [hcl] at hx
      exact absurd hx (by simp)
    · exact absurd hx hdir
    · rw [hb] at hx
      exact absurd hx (by simp)

/-- Witness for C6 at a concrete clone failure. -/
theorem failed_stage_no_switch_witness :
    (∃ msgs : List GoStr, cloneFailEvs = msgs.map .progress) ∧
    (∀ name, StreamEvent.switchSig name ∉ cloneFailEvs) ∧
    Stage.openFile ∉ [Stage.mkTemp, Stage.clone] ∧
    (cloneFailSys.cloneOK = false → Stage.build ∉ [Stage.mkTemp, Stage.clone]) ∧
    (Stage.clone ∈ [Stage.mkTemp, Stage.clone] →
      cloneFailEvs.getLast? = some (.progress msgCloneFail) ∨
      cloneFailEvs.getLast? = some (.progress msgEmptyRepo) ∨
      cloneFailEvs.getLast? = some (.progress msgCompileFail)) ∧
    (∀ pm : List GoStr, cloneFailEvs = pm.map .progress → (∀ m ∈ pm, '\n' ∉ m) →
      ∀ ks w, ∃ ms, clientMain (encodeStream cloneFailEvs) ks w = .noArtifact ms) :=
  failed_stage_no_switch reqPost cloneFailSys cloneFailEvs [.mkTemp, .clone]
    (by decide) (by decide)

set_option maxRecDepth 100000 in
/-- Counterexample to C6 as stated: a request whose clone stage fails but
whose repository reference injects a forged `binary_start` line through
the unsanitized start message produces a server stream with no
SwitchSignal at all — yet the client detects the forged line, invokes its
Artifact Sink, and creates a local file named `evil [linux/amd64]`. -/
theorem failed_stage_sink_invoked_cex :
    evilCloneFailSys.cloneOK = false ∧
    buildHandler reqPost evilCloneFailSys =
      (.stream evilCloneFailEvs, [.mkTemp, .clone]) ∧
    evilCloneFailEvs =
      [startMsg (withDefaults evilPayload), msgStep1, msgCloneFail].map .progress ∧
    (clientMain (encodeStream evilCloneFailEvs) [0] true).createsFile = true ∧
    savedFilename (clientMain (encodeStream evilCloneFailEvs) [0] true) = some evilName := by
  refine ⟨by decide, by decide, by decide, ?_, ?_⟩ <;>
  · have h0 : (BufReader.mk [] (encodeStream evilCloneFailEvs)).remaining
        = str "data: Starting job for x" ++ '\n' ::
          (encodeEvent (.switchSig evilName) ++ encodeStream (evilCloneFailEvs.drop 1)) := by
      decide
    obtain ⟨r1, msgs1, hstep, hrem1⟩ :=
      @clientLoop_step (BufReader.mk [] (encodeStream evilCloneFailEvs))
        (str "data: Starting job for x")
        (encodeEvent (.switchSig evilName) ++ encodeStream (evilCloneFailEvs.drop 1)) [0] []
        h0 (by decide) (by decide)
    obtain ⟨r3, hsw, hwt⟩ :=
      @clientLoop_switch evilName (encodeStream (evilCloneFailEvs.drop 1)) r1
        (List.drop 1 [0]) msgs1 (by decide) hrem1
    have hne : evilName.isEmpty = false := by decide
    unfold clientMain
    rw [hstep, hsw]
    simp [ClientOutcome.createsFile, savedFilename, hne]

/-- C2: for every response made of newline-free progress events, the
switch signal (with a trim-stable artifact name) and raw artifact bytes,
the client — under every possible over-fetch schedule of its buffered line
reader, in particular for any number N of bytes pre-fetched past the blank
separator line — writes to the local artifact file exactly the bytes the
server wrote after the SwitchSignal's terminating blank line, unaltered
and in order. -/
theorem artifact_handoff_lossless (pm : List GoStr) (name bs : GoStr) (ks : List Nat)
    (hnl : ∀ m ∈ pm, '\n' ∉ m) (hname : trimStable name) :
    ∃ ms, clientMain (encodeStream (pm.map .progress ++ [.switchSig name, .raw bs]))
        ks true = .saved ms name bs :=
  client_roundtrip pm name bs ks hnl hname

/-- Witness for C2: a concrete stream whose artifact bytes collide with the
line framing, read with a non-trivial over-fetch schedule. -/
theorem artifact_handoff_lossless_witness :
    ∃ ms, clientMain (encodeStream ([successMsg 7].map .progress ++
        [.switchSig (str "app"), .raw binFixture])) [2, 7, 3, 5] true
      = .saved ms (str "app") binFixture :=
  artifact_handoff_lossless [successMsg 7] (str "app") binFixture [2, 7, 3, 5]
    (by decide) (by decide)

/-- C8: when the connection closes before any SwitchSignal (a response of
newline-free progress events only — the server's failure paths), the
client reports the no-artifact outcome, creates no local file, and that
outcome is distinct from the mid-transfer download-interrupted error. -/
theorem close_before_switch_no_artifact (pm : List GoStr) (ks : List Nat) (w : Bool)
    (hnl : ∀ m ∈ pm, '\n' ∉ m) :
    ∃ ms, clientMain (encodeStream (pm.map .progress)) ks w = .noArtifact ms ∧
      (ClientOutcome.noArtifact ms).createsFile = false ∧
      (ClientOutcome.noArtifact ms).isDownloadInterrupted = false := by
  obtain ⟨ms, hms⟩ := client_no_switch pm ks w hnl
  exact ⟨ms, hms, rfl, rfl⟩

/-- Witness for C8 at the concrete clone-failure stream. -/
theorem close_before_switch_no_artifact_witness :
    ∃ ms, clientMain (encodeStream ([startMsg (withDefaults okPayload), msgStep1,
        msgCloneFail].map .progress)) [3, 1] false = .noArtifact ms ∧
      (ClientOutcome.noArtifact ms).createsFile = false ∧
      (ClientOutcome.noArtifact ms).isDownloadInterrupted = false :=
  close_before_switch_no_artifact [startMsg (withDefaults okPayload), msgStep1, msgCloneFail]
    [3, 1] false (by decide)

/-- C5 (code bug): the server's `sendProgress` is documented in the source
("Clean newlines to avoid breaking SSE protocol") and specified to strip
or reject embedded line terminators, but it embeds the message verbatim:
for a message containing a newline the emitted bytes contain the
terminator inside the message portion, so the peer's line framing sees a
stray unframed line. -/
theorem sendProgress_embeds_newline :
    sendProgressWire (str "a\nb") = str "data: a\nb\n\n" ∧
    '\n' ∈ str "a\nb" ∧
    firstLineSplit (sendProgressWire (str "a\nb")) = some (str "data: a\n", str "b\n\n") ∧
    dataColon.isPrefixOf (str "b\n\n") = false := by decide

/-- C10 (amended): for every successful build the SwitchSignal carries
exactly `app` (linux) or `app.exe` (windows), a name depending only on the
target OS and not on the requested repository; and provided the progress
messages are newline-free — in particular when the repository reference
and architecture contain no newline, absent the `sendProgress` newline
injection — the client creates its local file under exactly that name with
exactly the artifact bytes. -/
theorem artifact_name_fixed (r : ServerRequest) (sys : SysOracle) (p0 : RequestPayload)
    (ks : List Nat)
    (hpre : preflightOK r sys p0) (hos : ¬osUnsupported p0)
    (hmk : sys.mkdirTempOK = true) (hcl : sys.cloneOK = true)
    (hdir : sys.dirContents ≠ []) (hb : sys.buildOK = true) (ho : sys.openOK = true)
    (hrnl : '\n' ∉ p0.repoURL) (hanl : '\n' ∉ p0.targetArch) :
    outputBinaryBase (withDefaults p0) =
      (if p0.targetOS = str "windows" then str "app.exe" else str "app") ∧
    ∃ evs ms,
      buildHandler r sys = (.stream evs, fullStages) ∧
      .switchSig (outputBinaryBase (withDefaults p0)) ∈ evs ∧
      clientMain (encodeStream evs) ks true =
        .saved ms (outputBinaryBase (withDefaults p0)) sys.fileBytes := by
  obtain ⟨hm, ha, hf, hd⟩ := hpre
  have hosOr : (withDefaults p0).targetOS = str "windows" ∨
      (withDefaults p0).targetOS = str "linux" := by
    rcases not_and_or.mp hos with h | h
    · exact .inl (not_not.mp h)
    · exact .inr (not_not.mp h)
  have hOSnl : '\n' ∉ (withDefaults p0).targetOS := by
    rcases hosOr with h | h <;> rw [h] <;> decide
  have hos' : ¬((withDefaults p0).targetOS ≠ str "windows" ∧
      (withDefaults p0).targetOS ≠ str "linux") := hos
  have heq : buildHandler r sys = (.stream [evStart p0, .progress msgStep1,
      .progress msgStep2, .progress msgStep3,
      .progress (successMsg sys.fileBytes.length),
      .switchSig (outputBinaryBase (withDefaults p0)), .raw sys.fileBytes], fullStages) := by
    simp [buildHandler, evStart, fullStages, hm, ha, hf, hd, hos', hmk, hcl, hdir, hb, ho]
  have hform : ([evStart p0, .progress msgStep1, .progress msgStep2, .progress msgStep3,
      .progress (successMsg sys.fileBytes.length),
      .switchSig (outputBinaryBase (withDefaults p0)), .raw sys.fileBytes] : List StreamEvent)
      = (serverSuccessMsgs p0 sys.fileBytes.length).map .progress ++
        [.switchSig (outputBinaryBase (withDefaults p0)), .raw sys.fileBytes] := by
    simp [serverSuccessMsgs, evStart]
  have hnlAll : ∀ m ∈ serverSuccessMsgs p0 sys.fileBytes.length, '\n' ∉ m := by
    intro m hmem
    simp only [serverSuccessMsgs, List.mem_cons, List.not_mem_nil, or_false] at hmem
    rcases hmem with h | h | h | h | h
    · subst h
      exact startMsg_no_nl _ (by rw [withDefaults_repoURL]; exact hrnl) hOSnl
        (withDefaults_arch_no_nl p0 hanl)
    · subst h
      decide
    · subst h
      decide
    · subst h
      decide
    · subst h
      exact successMsg_no_nl _
  have hname : trimStable (outputBinaryBase (withDefaults p0)) := by
    unfold outputBinaryBase
    split
    · decide
    · decide
  obtain ⟨ms, hms⟩ := client_roundtrip (serverSuccessMsgs p0 sys.fileBytes.length)
    (outputBinaryBase (withDefaults p0)) sys.fileBytes ks hnlAll hname
  refine ⟨?_, _, ms, ?_, ?_, hms⟩
  · simp [outputBinaryBase, withDefaults_targetOS]
  · rw [heq, hform]
  · simp

/-- Witness for C10 (amended) at a concrete successful windows build with
a non-trivial over-fetch schedule. -/
theorem artifact_name_fixed_witness :
    outputBinaryBase (withDefaults okPayload) =
      (if okPayload.targetOS = str "windows" then str "app.exe" else str "app") ∧
    ∃ evs ms,
      buildHandler reqPost okSys = (.stream evs, fullStages) ∧
      .switchSig (outputBinaryBase (withDefaults okPayload)) ∈ evs ∧
      clientMain (encodeStream evs) [4, 2] true =
        .saved ms (outputBinaryBase (withDefaults okPayload)) okSys.fileBytes :=
  artifact_name_fixed reqPost okSys okPayload [4, 2] (by decide) (by decide) (by decide)
    (by decide) (by decide) (by decide) (by decide) (by decide) (by decide)

set_option maxRecDepth 100000 in
/-- Counterexample to C10 as stated: a successful build whose repository
reference injects a forged `binary_start` line through the unsanitized
start message makes the client save its file under the injected name
`evil [linux/amd64]`, although the server's own SwitchSignal carries the
fixed name `app`. -/
theorem artifact_name_cex :
    buildHandler reqPost evilSys = (.stream evilEvs, fullStages) ∧
    StreamEvent.switchSig (str "app") ∈ evilEvs ∧
    savedFilename (clientMain (encodeStream evilEvs) [0] true) = some evilName ∧
    evilName ≠ str "app" ∧ evilName ≠ str "app.exe" := by
  refine ⟨by decide, by decide, ?_, by decide, by decide⟩
  have h0 : (BufReader.mk [] (encodeStream evilEvs)).remaining
      = str "data: Starting job for x" ++ '\n' ::
        (encodeEvent (.switchSig evilName) ++ encodeStream (evilEvs.drop 1)) := by decide
  obtain ⟨r1, msgs1, hstep, hrem1⟩ :=
    @clientLoop_step (BufReader.mk [] (encodeStream evilEvs))
      (str "data: Starting job for x")
      (encodeEvent (.switchSig evilName) ++ encodeStream (evilEvs.drop 1)) [0] []
      h0 (by decide) (by decide)
  obtain ⟨r3, hsw, hwt⟩ :=
    @clientLoop_switch evilName (encodeStream (evilEvs.drop 1)) r1 (List.drop 1 [0]) msgs1
      (by decide) hrem1
  have hne : evilName.isEmpty = false := by decide
  unfold clientMain
  rw [hstep, hsw]
  simp [savedFilename, hne]
